import Mathlib

/-!
Verification of the availability/reservation engine of the appointment-booking
assistant (`src/api/availability_server.py`, `src/services/booking.py`,
`src/services/availability.py`).

Shallow embedding conventions:
* timestamps and durations are `Nat` (seconds); `datetime.now()` becomes an
  explicit `now : Nat` parameter threaded to every operation that reads the clock;
* `AvailabilityStore._slots : Dict[UUID, SlotResponse]` becomes a `List Slot`
  in insertion order (Python dicts iterate in insertion order); key uniqueness
  of the dict is the hypothesis `(slots.map Slot.id).Nodup` where a proof needs it;
* `AvailabilityStore._reservations : Dict[UUID, datetime]` becomes an
  association list `List (Nat × Nat)` (slot id, expiry), again in insertion
  order, with dict-key uniqueness as an explicit hypothesis where needed;
* each method returns the updated store paired with its Python return value;
* `uuid4()` booking ids are taken as parameters; log lines carry no state.
-/

/-- `SlotResponse` (availability_server.py): one bookable appointment window. -/
structure Slot where
  id : Nat
  start_time : Nat
  end_time : Nat
  practitioner_name : String
  practitioner_id : String
  motive_id : String
  is_available : Bool
deriving DecidableEq, Repr

/-- The mutable state of `AvailabilityStore`: `_slots` and `_reservations`.
(`_bookings` is never read or written by any server operation and is omitted.) -/
structure Store where
  slots : List Slot
  reservations : List (Nat × Nat)
deriving DecidableEq, Repr

/-- `self._slots.get(slot_id)` / `slot_id in self._slots`: dict lookup,
modelled as first match by id over the insertion-ordered list. -/
def find_slot (slots : List Slot) (sid : Nat) : Option Slot :=
  slots.find? (fun s => s.id == sid)

/-- `slot_id in self._reservations`. -/
def is_reserved (st : Store) (sid : Nat) : Bool :=
  st.reservations.any (fun r => r.1 == sid)

/-- `AvailabilityStore._cleanup_expired_reservations`: collect the ids whose
expiry is strictly below `now` (Python: `expiry < now`), then delete each
collected key from the reservation dict. -/
def cleanup_expired_reservations (now : Nat) (st : Store) : Store :=
  let expired := (st.reservations.filter (fun r => r.2 < now)).map (fun r => r.1)
  { st with
    reservations :=
      expired.foldl (fun res sid => res.eraseP (fun r => r.1 == sid)) st.reservations }

/-- The selection predicate of `get_availabilities` (the chain of `continue`
guards), evaluated against the already-swept store `st`.  `practitioner_id`
is `Option String` (`None`/empty string are both falsy in Python and both mean
"no filter", so they are collapsed into `none`). -/
def matches_query (st : Store) (motive_id : String) (start_date end_date : Nat)
    (practitioner_id : Option String) (slot : Slot) : Bool :=
  slot.is_available && slot.motive_id == motive_id &&
  !(slot.start_time < start_date) && !(slot.start_time > end_date) &&
  (match practitioner_id with
   | some p => slot.practitioner_id == p
   | none => true) &&
  !(is_reserved st slot.id)

/-- The comparison key of `results.sort(key=lambda s: s.start_time)`. -/
def slotLE (a b : Slot) : Prop := a.start_time ≤ b.start_time

instance : DecidableRel slotLE :=
  fun a b => inferInstanceAs (Decidable (a.start_time ≤ b.start_time))

instance : IsTotal Slot slotLE := ⟨fun a b => Nat.le_total a.start_time b.start_time⟩

instance : IsTrans Slot slotLE := ⟨fun _ _ _ h1 h2 => Nat.le_trans h1 h2⟩

/-- The filtered, stably sorted sequence built by `get_availabilities` before
pagination.  Python's `list.sort` is stable ascending; `List.insertionSort`
with a total, transitive `≤` is the stable ascending sort on lists. -/
def sorted_results (st : Store) (motive_id : String) (start_date end_date : Nat)
    (practitioner_id : Option String) : List Slot :=
  (st.slots.filter (matches_query st motive_id start_date end_date practitioner_id)).insertionSort slotLE

/-- `AvailabilityStore.get_availabilities`: sweep, filter, sort, then the
plain slice `results[offset : offset + limit]`. -/
def get_availabilities (now : Nat) (st : Store) (motive_id : String)
    (start_date end_date : Nat) (practitioner_id : Option String)
    (limit offset : Nat) : Store × List Slot :=
  let st := cleanup_expired_reservations now st
  (st, ((sorted_results st motive_id start_date end_date practitioner_id).drop offset).take limit)

/-- `AvailabilityStore.get_slot`: pure dict lookup, no state change. -/
def get_slot (st : Store) (sid : Nat) : Option Slot :=
  find_slot st.slots sid

/-- `AvailabilityStore.check_availability`: sweep, then the three guards. -/
def check_availability (now : Nat) (st : Store) (sid : Nat) : Store × Bool :=
  let st := cleanup_expired_reservations now st
  match find_slot st.slots sid with
  | none => (st, false)
  | some slot =>
    if !slot.is_available then (st, false)
    else if is_reserved st sid then (st, false)
    else (st, true)

/-- The body of `reserve_slot` that runs under `async with self._lock:`.  It
contains no `await`, so once the asyncio lock is held it executes atomically
with respect to every other task. -/
def critical_section (now sid dur : Nat) (st : Store) : Store × Option Nat :=
  if is_reserved st sid then (st, none)
  else match find_slot st.slots sid with
    | none => (st, none)
    | some slot =>
      if !slot.is_available then (st, none)
      else ({ st with reservations := st.reservations ++ [(sid, now + dur)] },
            some (now + dur))

/-- `AvailabilityStore.reserve_slot`: sweep (its own awaited step), then the
lock-guarded check-then-write.  Returns `some expiry` on success, `none`
(the endpoint's 409 conflict) otherwise. -/
def reserve_slot (now : Nat) (st : Store) (sid : Nat) (duration_seconds : Nat) :
    Store × Option Nat :=
  critical_section now sid duration_seconds (cleanup_expired_reservations now st)

/-- `AvailabilityStore.release_slot`. -/
def release_slot (st : Store) (sid : Nat) : Store × Bool :=
  if is_reserved st sid then
    ({ st with reservations := st.reservations.eraseP (fun r => r.1 == sid) }, true)
  else (st, false)

/-- `self._slots[slot_id].is_available = False` (dict-entry field update). -/
def mark_booked (slots : List Slot) (sid : Nat) : List Slot :=
  slots.map (fun s => if s.id == sid then { s with is_available := false } else s)

/-- `AvailabilityStore.book_slot`: if the slot exists, set its flag to false
and drop any reservation for it; succeeds whenever the slot exists. -/
def book_slot (st : Store) (sid : Nat) : Store × Bool :=
  if (find_slot st.slots sid).isSome then
    ({ slots := mark_booked st.slots sid,
       reservations := st.reservations.eraseP (fun r => r.1 == sid) }, true)
  else (st, false)

/-! ## HTTP layer (`FastAPI` endpoints) -/

/-- `AvailabilityResponse`: the wire shape of the search endpoint. -/
structure AvailabilityResponse where
  slots : List Slot
  total : Nat
  motive_id : String
deriving DecidableEq, Repr

/-- `timedelta(weeks=2)` in seconds. -/
def two_weeks : Nat := 14 * 24 * 3600

/-- `GET /api/v1/availabilities`: apply the window defaults
(`start_date = now`, `end_date = start_date + 2 weeks`), call the store, and
build the response with `total=len(slots)` over the returned page. -/
def get_availabilities_endpoint (now : Nat) (st : Store) (motive_id : String)
    (start_date end_date : Option Nat) (practitioner_id : Option String)
    (limit offset : Nat) : Store × AvailabilityResponse :=
  let start := start_date.getD now
  let stop := end_date.getD (start + two_weeks)
  let p := get_availabilities now st motive_id start stop practitioner_id limit offset
  (p.1, { slots := p.2, total := p.2.length, motive_id := motive_id })

/-- `GET /api/v1/availabilities/{slot_id}`: 404 (`none`) when the slot is
missing; otherwise recompute live availability and assign it back with
`slot.is_available = is_available`.  In Python `slot` is the very object held
in `store._slots`, so this assignment writes through into the catalog; the
embedding therefore updates the stored record as well as the returned copy. -/
def get_slot_endpoint (now : Nat) (st : Store) (sid : Nat) : Store × Option Slot :=
  match get_slot st sid with
  | none => (st, none)
  | some slot =>
    let p := check_availability now st sid
    let st' := { p.1 with
      slots := p.1.slots.map
        (fun s => if s.id == sid then { s with is_available := p.2 } else s) }
    (st', some { slot with is_available := p.2 })

/-- `POST /api/v1/availabilities/{slot_id}/book`: `some` success payload, or
`none` for the 400 "Could not book slot" branch. -/
def book_slot_endpoint (st : Store) (sid : Nat) : Store × Bool :=
  book_slot st sid

/-! ## Client-side `AvailabilityService` (availability.py), expressed against
the store the HTTP calls reach -/

/-- `AvailabilityService.check_slot_availability`: GET the slot endpoint;
404 means `False`; otherwise read `is_available` from the payload. -/
def check_slot_availability (now : Nat) (st : Store) (sid : Nat) : Store × Bool :=
  let p := get_slot_endpoint now st sid
  match p.2 with
  | none => (p.1, false)
  | some slot => (p.1, slot.is_available)

/-- `AvailabilityService.reserve_slot`: POST reserve with the hard-coded
300-second duration; 409 maps to `false`. -/
def reserve_slot_client (now : Nat) (st : Store) (sid : Nat) : Store × Bool :=
  let p := reserve_slot now st sid 300
  (p.1, p.2.isSome)

/-! ## `BookingService.book_appointment` (booking.py) -/

/-- `BookingResult` (models/booking.py). -/
structure BookingResult where
  success : Bool
  booking_id : Option Nat
  message : String
  error_code : Option String
deriving DecidableEq, Repr

/-- A visit motive record from `config.VISIT_MOTIVES`. -/
structure Motive where
  id : String
  name : String
  duration_minutes : Nat
  description : String
deriving DecidableEq, Repr

def msg_unavailable : String := "Ce creneau est indisponible."
def msg_conflict : String := "Ce creneau vient de partir."
def msg_confirmed : String := "Rendez-vous confirme."
def msg_booking_error : String := "Une erreur est survenue. Veuillez reessayer."

def slot_unavailable_result : BookingResult :=
  { success := false, booking_id := none, message := msg_unavailable,
    error_code := some "SLOT_UNAVAILABLE" }

def reservation_conflict_result : BookingResult :=
  { success := false, booking_id := none, message := msg_conflict,
    error_code := some "RESERVATION_CONFLICT" }

def booking_error_result : BookingResult :=
  { success := false, booking_id := none, message := msg_booking_error,
    error_code := some "BOOKING_ERROR" }

/-- An unexpected internal fault (`Exception` in Python). -/
inductive Exc where
  | fault : String → Exc
deriving DecidableEq, Repr

/-- The `try:` body of `BookingService.book_appointment`.  Each sub-operation
that could raise is an `Except Exc` parameter holding the outcome the live
call would produce; `do`-bind propagates a raised exception exactly as Python
control flow does (later calls are never evaluated once one raises, and an
early `return` skips them too). -/
def book_appointment_body (check_result : Except Exc Bool)
    (reserve_result : Except Exc Bool) (motive_lookup : Except Exc (Option Motive))
    (log_result : Except Exc Unit) (booking_id : Nat) : Except Exc BookingResult :=
  match check_result with
  | .error e => .error e
  | .ok is_available =>
    if !is_available then .ok slot_unavailable_result
    else
      match reserve_result with
      | .error e => .error e
      | .ok reserved =>
        if !reserved then .ok reservation_conflict_result
        else
          match motive_lookup with
          | .error e => .error e
          | .ok motive =>
            let _motive_name := match motive with
              | some m => m.name
              | none => "Consultation"
            match log_result with
            | .error e => .error e
            | .ok _ =>
              .ok { success := true, booking_id := some booking_id,
                    message := msg_confirmed, error_code := none }

/-- `BookingService.book_appointment`: the `try`/`except Exception` wrapper,
converting any raised fault into the generic failed `BookingResult`. -/
def book_appointment (check_result : Except Exc Bool)
    (reserve_result : Except Exc Bool) (motive_lookup : Except Exc (Option Motive))
    (log_result : Except Exc Unit) (booking_id : Nat) : BookingResult :=
  match book_appointment_body check_result reserve_result motive_lookup
      log_result booking_id with
  | .ok r => r
  | .error _ => booking_error_result

/-- The fault-free `book_appointment` control flow expressed directly over the
store the availability client talks to: availability check via the GET
endpoint, then the client reserve (duration 300), then the audit log (no
store effect).  This is the path a successful booking takes. -/
def book_appointment_flow (now : Nat) (st : Store) (sid : Nat) (booking_id : Nat) :
    Store × BookingResult :=
  let c := check_slot_availability now st sid
  if !c.2 then (c.1, slot_unavailable_result)
  else
    let r := reserve_slot_client now c.1 sid
    if !r.2 then (r.1, reservation_conflict_result)
    else (r.1, { success := true, booking_id := some booking_id,
                 message := msg_confirmed, error_code := none })

/-! ## Interleaving model for concurrent `reserve_slot` calls

An asyncio task switches only at `await` points.  A `reserve_slot` call has
exactly two atomic units: the awaited sweep, and the lock-guarded
check-then-write (`critical_section`), whose body contains no `await` and so
runs without interleaving once the lock is held.  A schedule is an arbitrary
list of task indices; each scheduled index advances that call by one atomic
unit.  Quantifying over all schedules quantifies over all interleavings of
the atomic units (the lock itself serializes the critical sections, which is
exactly what making `critical_section` a single step expresses). -/

/-- Progress of one concurrent `reserve_slot` call. -/
inductive Phase where
  | ready
  | swept
  | done (result : Option Nat)
deriving DecidableEq, Repr

/-- A configuration: the shared store plus, per concurrent call, its requested
hold duration and its phase. -/
structure Conf where
  store : Store
  procs : List (Nat × Phase)
deriving DecidableEq, Repr

/-- Advance call `i` by one atomic unit (no-op on an invalid index or a
finished call). -/
def sched_step (now sid : Nat) (c : Conf) (i : Nat) : Conf :=
  match c.procs[i]? with
  | none => c
  | some (d, Phase.ready) =>
      { store := cleanup_expired_reservations now c.store,
        procs := c.procs.set i (d, Phase.swept) }
  | some (d, Phase.swept) =>
      let p := critical_section now sid d c.store
      { store := p.1, procs := c.procs.set i (d, Phase.done p.2) }
  | some (_, Phase.done _) => c

/-- Run a whole schedule. -/
def run_sched (now sid : Nat) (c : Conf) (sched : List Nat) : Conf :=
  sched.foldl (sched_step now sid) c

def phase_done : Phase → Bool
  | .done _ => true
  | _ => false

def phase_success : Phase → Bool
  | .done (some _) => true
  | _ => false

def phase_conflict : Phase → Bool
  | .done none => true
  | _ => false

/-- Every concurrent call has finished. -/
def all_done (procs : List (Nat × Phase)) : Bool :=
  procs.all (fun p => phase_done p.2)

/-! ## Helper lemmas -/

/-- Erasing by a predicate disjoint from `p` does not change the `p`-filter. -/
theorem filter_eraseP_of_disjoint {α : Type} (p q : α → Bool)
    (hpq : ∀ a, q a = true → p a = false) (l : List α) :
    (l.eraseP q).filter p = l.filter p := by
  induction l with
  | nil => rfl
  | cons a t ih =>
    by_cases hq : q a = true
    · rw [List.eraseP_cons_of_pos hq, List.filter_cons_of_neg]
      simp [hpq a hq]
    · rw [List.eraseP_cons_of_neg hq]
      by_cases hp : p a = true
      · rw [List.filter_cons_of_pos hp, List.filter_cons_of_pos hp, ih]
      · rw [List.filter_cons_of_neg (by simp_all), List.filter_cons_of_neg (by simp_all), ih]

/-- Deleting keys that are all different from `sid` preserves the entries for
`sid`. -/
theorem foldl_eraseP_filter_key (sid : Nat) (keys : List Nat) (hk : sid ∉ keys) :
    ∀ l : List (Nat × Nat),
      ((keys.foldl (fun res k => res.eraseP (fun r => r.1 == k)) l).filter
        (fun r => r.1 == sid)) = l.filter (fun r => r.1 == sid) := by
  induction keys with
  | nil => intro l; rfl
  | cons k ks ih =>
    intro l
    have hks : sid ∉ ks := fun h => hk (List.mem_cons_of_mem _ h)
    have hne : sid ≠ k := fun h => hk (h ▸ List.mem_cons_self _ _)
    rw [List.foldl_cons, ih hks]
    exact filter_eraseP_of_disjoint _ _
      (fun a ha => by
        simp only [beq_iff_eq] at ha ⊢
        simp [ha, Ne.symm hne]) l

/-- The key-deletion fold only removes entries. -/
theorem foldl_eraseP_sublist (keys : List Nat) :
    ∀ l : List (Nat × Nat),
      (keys.foldl (fun res k => res.eraseP (fun r => r.1 == k)) l).Sublist l := by
  induction keys with
  | nil => intro l; exact List.Sublist.refl l
  | cons k ks ih =>
    intro l
    rw [List.foldl_cons]
    exact (ih _).trans (List.eraseP_sublist l)

theorem cleanup_slots (now : Nat) (st : Store) :
    (cleanup_expired_reservations now st).slots = st.slots := rfl

theorem cleanup_reservations_sublist (now : Nat) (st : Store) :
    (cleanup_expired_reservations now st).reservations.Sublist st.reservations :=
  foldl_eraseP_sublist _ _

/-- If the filters by `p` agree, so do the `any p` tests. -/
theorem any_congr_of_filter_eq {α : Type} {p : α → Bool} {l₁ l₂ : List α}
    (h : l₁.filter p = l₂.filter p) : l₁.any p = l₂.any p := by
  rw [Bool.eq_iff_iff, List.any_eq_true, List.any_eq_true]
  constructor
  · rintro ⟨x, hx, hp⟩
    have : x ∈ l₂.filter p := h ▸ List.mem_filter.mpr ⟨hx, hp⟩
    exact ⟨x, (List.mem_filter.mp this).1, hp⟩
  · rintro ⟨x, hx, hp⟩
    have : x ∈ l₁.filter p := h ▸ List.mem_filter.mpr ⟨hx, hp⟩
    exact ⟨x, (List.mem_filter.mp this).1, hp⟩

/-- When no reservation for `sid` is strictly expired, the sweep preserves the
entries for `sid` (the collected expired keys cannot contain `sid`). -/
theorem cleanup_filter_key (now sid : Nat) (st : Store)
    (h : ∀ r ∈ st.reservations, r.1 = sid → now ≤ r.2) :
    (cleanup_expired_reservations now st).reservations.filter (fun r => r.1 == sid) =
      st.reservations.filter (fun r => r.1 == sid) := by
  apply foldl_eraseP_filter_key
  intro hmem
  rcases List.mem_map.mp hmem with ⟨r, hr, hfst⟩
  rcases List.mem_filter.mp hr with ⟨hrl, hexp⟩
  have hexp' : r.2 < now := by simpa using hexp
  have hle := h r hrl hfst
  omega

/-- Corollary: the sweep does not change whether `sid` is held, as long as no
entry for `sid` is strictly expired. -/
theorem cleanup_is_reserved (now sid : Nat) (st : Store)
    (h : ∀ r ∈ st.reservations, r.1 = sid → now ≤ r.2) :
    is_reserved (cleanup_expired_reservations now st) sid = is_reserved st sid :=
  any_congr_of_filter_eq (cleanup_filter_key now sid st h)

/-- With unique keys, erasing by key is filtering that key out. -/
theorem eraseP_key_of_nodup (k : Nat) :
    ∀ l : List (Nat × Nat), (l.map Prod.fst).Nodup →
      l.eraseP (fun r => r.1 == k) = l.filter (fun r => !(r.1 == k)) := by
  intro l
  induction l with
  | nil => intro _; rfl
  | cons a t ih =>
    intro hnd
    rw [List.map_cons, List.nodup_cons] at hnd
    by_cases ha : a.1 = k
    · rw [List.eraseP_cons_of_pos (by simp [ha]), List.filter_cons_of_neg (by simp [ha])]
      symm
      rw [List.filter_eq_self]
      intro r hr
      have : r.1 ≠ k := by
        intro he
        exact hnd.1 (ha ▸ he ▸ List.mem_map_of_mem Prod.fst hr)
      simp [this]
    · rw [List.eraseP_cons_of_neg (by simp [ha]), List.filter_cons_of_pos (by simp [ha]),
        ih hnd.2]

/-- With unique keys, the key-deletion fold is a filter. -/
theorem foldl_eraseP_eq_filter (keys : List Nat) :
    ∀ l : List (Nat × Nat), (l.map Prod.fst).Nodup →
      keys.foldl (fun res k => res.eraseP (fun r => r.1 == k)) l =
        l.filter (fun r => !(decide (r.1 ∈ keys))) := by
  induction keys with
  | nil =>
    intro l _
    simp [List.filter_eq_self]
  | cons k ks ih =>
    intro l hnd
    rw [List.foldl_cons, eraseP_key_of_nodup k l hnd]
    have hnd' : ((l.filter (fun r => !(r.1 == k))).map Prod.fst).Nodup :=
      ((List.filter_sublist l).map Prod.fst).nodup hnd
    rw [ih _ hnd', List.filter_filter]
    apply List.filter_congr
    intro r _
    by_cases hrk : r.1 = k <;> by_cases hks : r.1 ∈ ks <;> simp [hrk, hks]

/-- Read of the reservation dict: with unique keys (a dict invariant), the
sweep keeps exactly the entries whose expiry is not strictly in the past. -/
theorem cleanup_eq_filter (now : Nat) (st : Store)
    (hnd : (st.reservations.map Prod.fst).Nodup) :
    (cleanup_expired_reservations now st).reservations =
      st.reservations.filter (fun r => !(r.2 < now)) := by
  unfold cleanup_expired_reservations
  simp only
  rw [foldl_eraseP_eq_filter _ _ hnd]
  apply List.filter_congr
  intro r hr
  by_cases hexp : r.2 < now
  · have hm : r.1 ∈ (st.reservations.filter (fun r => r.2 < now)).map Prod.fst :=
      List.mem_map_of_mem Prod.fst (List.mem_filter.mpr ⟨hr, by simp [hexp]⟩)
    simp [hm, hexp]
  · have hm : r.1 ∉ (st.reservations.filter (fun r => r.2 < now)).map Prod.fst := by
      intro hmem
      rcases List.mem_map.mp hmem with ⟨r', hr', hfst⟩
      rcases List.mem_filter.mp hr' with ⟨hrl', hexp'⟩
      have := List.inj_on_of_nodup_map hnd hrl' hr hfst
      subst this
      simp_all
    simp [hm, hexp]

/-- Stability of the sort: filtering by a predicate whose instances are
pairwise `slotLE`-related (for example "start time equals `t`") commutes with
the stable sort, so equal-key elements keep their original relative order. -/
theorem filter_insertionSort_eq (p : Slot → Bool)
    (hp : ∀ a b, p a = true → p b = true → slotLE a b) (l : List Slot) :
    (l.insertionSort slotLE).filter p = l.filter p := by
  have hpair : (l.filter p).Pairwise slotLE :=
    List.pairwise_of_forall_mem_list (fun a ha b hb =>
      hp a b (List.mem_filter.mp ha).2 (List.mem_filter.mp hb).2)
  have h1 : (l.filter p).Sublist (l.insertionSort slotLE) :=
    List.sublist_insertionSort hpair (List.filter_sublist l)
  have h2 : (l.filter p).Sublist ((l.insertionSort slotLE).filter p) := by
    have h2' := h1.filter p
    rwa [List.filter_filter, show (fun a => p a && p a) = p from funext fun a => Bool.and_self _]
      at h2'
  have h3 : ((l.insertionSort slotLE).filter p).length = (l.filter p).length :=
    ((List.perm_insertionSort slotLE l).filter p).length_eq
  exact (h2.eq_of_length h3.symm).symm

theorem Store.eq_of_fields {a b : Store} (h1 : a.slots = b.slots)
    (h2 : a.reservations = b.reservations) : a = b := by
  cases a; cases b; cases h1; cases h2; rfl

/-- A second sweep at the same instant is a no-op (dict-key uniqueness). -/
theorem cleanup_idem (now : Nat) (st : Store)
    (hnd : (st.reservations.map Prod.fst).Nodup) :
    cleanup_expired_reservations now (cleanup_expired_reservations now st) =
      cleanup_expired_reservations now st := by
  have h1 := cleanup_eq_filter now st hnd
  have hnd' : ((cleanup_expired_reservations now st).reservations.map Prod.fst).Nodup :=
    ((cleanup_reservations_sublist now st).map Prod.fst).nodup hnd
  refine Store.eq_of_fields rfl ?_
  rw [cleanup_eq_filter _ _ hnd', h1, List.filter_filter]
  apply List.filter_congr
  intro r _
  exact Bool.and_self _

/-- Case description of the lock-guarded check-then-write. -/
theorem critical_section_spec (now sid dur : Nat) (st : Store) :
    (is_reserved st sid = true → critical_section now sid dur st = (st, none)) ∧
    (is_reserved st sid = false → find_slot st.slots sid = none →
      critical_section now sid dur st = (st, none)) ∧
    (∀ s, is_reserved st sid = false → find_slot st.slots sid = some s →
      s.is_available = false → critical_section now sid dur st = (st, none)) ∧
    (∀ s, is_reserved st sid = false → find_slot st.slots sid = some s →
      s.is_available = true →
      critical_section now sid dur st =
        ({ st with reservations := st.reservations ++ [(sid, now + dur)] },
          some (now + dur))) := by
  refine ⟨fun h => ?_, fun h1 h2 => ?_, fun s h1 h2 h3 => ?_, fun s h1 h2 h3 => ?_⟩ <;>
    simp [critical_section, *]

/-- A concrete available slot used by witnesses and counterexamples. -/
def demo_slot : Slot :=
  { id := 1, start_time := 10, end_time := 20, practitioner_name := "Dr. Marie Dubois",
    practitioner_id := "dr-dubois", motive_id := "first_consultation", is_available := true }

/-! ## Claims -/

/-- C5 counterexample: the claim says a reservation whose expiry is at or
before the current time is removed by the sweep, in particular one whose
expiry equals the current instant.  The code removes only `expiry < now`:
at `now = 100` the entry `(1, 100)` (expiry exactly now) survives. -/
theorem c5_counterexample :
    (100 : Nat) ≤ 100 ∧
    (cleanup_expired_reservations 100 ⟨[], [(1, 100)]⟩).reservations = [(1, 100)] := by
  decide

/-- C5 (amended): the sweep removes exactly the reservations whose expiry is
strictly before the current time (one expiring at the current instant is
kept), and it runs first inside search (`get_availabilities`),
`check_availability` and `reserve_slot`: each of those operations is the
sweep followed by its core logic on the swept store. -/
theorem c5_sweep_strict_and_runs_first :
    ∀ (now : Nat) (st : Store), (st.reservations.map Prod.fst).Nodup →
    ((cleanup_expired_reservations now st).reservations =
        st.reservations.filter (fun r => !(r.2 < now))) ∧
    (∀ r ∈ st.reservations,
        (r ∈ (cleanup_expired_reservations now st).reservations ↔ now ≤ r.2)) ∧
    (∀ motive sd ed prac limit offset,
        get_availabilities now st motive sd ed prac limit offset =
          (cleanup_expired_reservations now st,
            ((sorted_results (cleanup_expired_reservations now st) motive sd ed prac).drop
              offset).take limit)) ∧
    (∀ sid, (check_availability now st sid).1 = cleanup_expired_reservations now st) ∧
    (∀ sid dur, reserve_slot now st sid dur =
        critical_section now sid dur (cleanup_expired_reservations now st)) := by
  intro now st hnd
  refine ⟨cleanup_eq_filter now st hnd, ?_, fun _ _ _ _ _ _ => rfl, ?_, fun _ _ => rfl⟩
  · intro r hr
    rw [cleanup_eq_filter now st hnd, List.mem_filter]
    constructor
    · rintro ⟨-, h⟩
      simp only [Bool.not_eq_true', decide_eq_false_iff_not, Nat.not_lt] at h
      exact h
    · intro h
      exact ⟨hr, by simp [Nat.not_lt.mpr h]⟩
  · intro sid
    unfold check_availability
    simp only
    split
    · rfl
    · split
      · rfl
      · split <;> rfl

theorem c5_witness :
    (cleanup_expired_reservations 50 ⟨[], [(1, 100), (2, 5)]⟩).reservations =
      ([(1, 100), (2, 5)] : List (Nat × Nat)).filter (fun r => !(r.2 < 50)) :=
  (c5_sweep_strict_and_runs_first 50 ⟨[], [(1, 100), (2, 5)]⟩ (by decide)).1

/-- C4 counterexample: at `now = 100`, slot 1 exists and is available and its
only reservation has expiry `100`, which is not live (a live reservation has
a strictly future expiry, and the spec's own sweep is defined to remove
expiries at or before now).  The claim then demands success, but the code
refuses: the stale entry survives the strict sweep and still blocks. -/
theorem c4_counterexample :
    find_slot [demo_slot] 1 = some demo_slot ∧
    demo_slot.is_available = true ∧
    (∀ r ∈ ([(1, 100)] : List (Nat × Nat)), r.1 = 1 → ¬ (100 < r.2)) ∧
    (reserve_slot 100 ⟨[demo_slot], [(1, 100)]⟩ 1 60).2 = none := by
  decide

/-- C4 (amended): `reserve_slot` succeeds iff the slot exists, its flag is
true, and every ledger entry for it has expiry strictly before now (so an
entry expiring exactly now also blocks, although it is no longer live).  On
success it records and returns expiry `now + duration`; on failure it returns
the conflict signal and, beyond the sweep`s removal of strictly expired
entries, leaves catalog and ledger unchanged. -/
theorem c4_reserve_iff :
    ∀ (now : Nat) (st : Store) (sid dur : Nat),
    (st.reservations.map Prod.fst).Nodup →
    ((reserve_slot now st sid dur).2.isSome = true ↔
      ((∃ s, find_slot st.slots sid = some s ∧ s.is_available = true) ∧
        ∀ r ∈ st.reservations, r.1 = sid → r.2 < now)) ∧
    ((reserve_slot now st sid dur).2.isSome = true →
      (reserve_slot now st sid dur).2 = some (now + dur) ∧
      (reserve_slot now st sid dur).1.slots = st.slots ∧
      (reserve_slot now st sid dur).1.reservations =
        st.reservations.filter (fun r => !(r.2 < now)) ++ [(sid, now + dur)]) ∧
    ((reserve_slot now st sid dur).2 = none →
      (reserve_slot now st sid dur).1.slots = st.slots ∧
      (reserve_slot now st sid dur).1.reservations =
        st.reservations.filter (fun r => !(r.2 < now))) := by
  intro now st sid dur hnd
  have hres := cleanup_eq_filter now st hnd
  have hsl : (cleanup_expired_reservations now st).slots = st.slots := rfl
  have hheld : is_reserved (cleanup_expired_reservations now st) sid = false ↔
      ∀ r ∈ st.reservations, r.1 = sid → r.2 < now := by
    unfold is_reserved
    rw [hres]
    constructor
    · intro h r hr hk
      by_contra hlt
      have hmem : r ∈ st.reservations.filter (fun r => !(r.2 < now)) :=
        List.mem_filter.mpr ⟨hr, by simp [hlt]⟩
      have : (st.reservations.filter (fun r => !(r.2 < now))).any (fun r => r.1 == sid) = true :=
        List.any_eq_true.mpr ⟨r, hmem, by simp [hk]⟩
      simp_all
    · intro h
      rw [Bool.eq_false_iff]
      intro hany
      rcases List.any_eq_true.mp hany with ⟨r, hmem, hk⟩
      rcases List.mem_filter.mp hmem with ⟨hr, hexp⟩
      have := h r hr (by simpa using hk)
      simp_all
  have hrw : reserve_slot now st sid dur =
      critical_section now sid dur (cleanup_expired_reservations now st) := rfl
  have hfind_eq : find_slot (cleanup_expired_reservations now st).slots sid =
      find_slot st.slots sid := rfl
  cases hrsv : is_reserved (cleanup_expired_reservations now st) sid with
  | true =>
    have heq := (critical_section_spec now sid dur
        (cleanup_expired_reservations now st)).1 hrsv
    rw [hrw, heq]
    refine ⟨⟨fun h => by simp at h, fun ⟨_, hall⟩ => ?_⟩, fun h => by simp at h,
      fun _ => ⟨hsl, hres⟩⟩
    exact absurd (hheld.mpr hall) (by simp [hrsv])
  | false =>
    cases hfind : find_slot st.slots sid with
    | none =>
      have heq := (critical_section_spec now sid dur
          (cleanup_expired_reservations now st)).2.1 hrsv (hfind_eq.trans hfind)
      rw [hrw, heq]
      exact ⟨⟨fun h => by simp at h, fun ⟨⟨s, hs, _⟩, _⟩ => by simp [hfind] at hs⟩,
        fun h => by simp at h, fun _ => ⟨hsl, hres⟩⟩
    | some s =>
      cases hav : s.is_available with
      | false =>
        have heq := (critical_section_spec now sid dur
            (cleanup_expired_reservations now st)).2.2.1 s hrsv (hfind_eq.trans hfind) hav
        rw [hrw, heq]
        refine ⟨⟨fun h => by simp at h, fun ⟨⟨s', hs', hav'⟩, _⟩ => ?_⟩,
          fun h => by simp at h, fun _ => ⟨hsl, hres⟩⟩
        injection hs' with hss
        rw [hss] at hav
        rw [hav'] at hav
        exact Bool.noConfusion hav
      | true =>
        have heq := (critical_section_spec now sid dur
            (cleanup_expired_reservations now st)).2.2.2 s hrsv (hfind_eq.trans hfind) hav
        rw [hrw, heq]
        refine ⟨⟨fun _ => ⟨⟨s, rfl, hav⟩, hheld.mp hrsv⟩, fun _ => rfl⟩,
          fun _ => ⟨rfl, hsl, ?_⟩, fun h => by simp at h⟩
        show (cleanup_expired_reservations now st).reservations ++ [(sid, now + dur)] = _
        rw [hres]

theorem c4_witness :
    ((reserve_slot 0 ⟨[demo_slot], []⟩ 1 300).2.isSome = true ↔
      ((∃ s, find_slot [demo_slot] 1 = some s ∧ s.is_available = true) ∧
        ∀ r ∈ ([] : List (Nat × Nat)), r.1 = 1 → r.2 < 0)) ∧
    ((reserve_slot 0 ⟨[demo_slot], []⟩ 1 300).2.isSome = true →
      (reserve_slot 0 ⟨[demo_slot], []⟩ 1 300).2 = some (0 + 300) ∧
      (reserve_slot 0 ⟨[demo_slot], []⟩ 1 300).1.slots = [demo_slot] ∧
      (reserve_slot 0 ⟨[demo_slot], []⟩ 1 300).1.reservations =
        ([] : List (Nat × Nat)).filter (fun r => !(r.2 < 0)) ++ [(1, 0 + 300)]) ∧
    ((reserve_slot 0 ⟨[demo_slot], []⟩ 1 300).2 = none →
      (reserve_slot 0 ⟨[demo_slot], []⟩ 1 300).1.slots = [demo_slot] ∧
      (reserve_slot 0 ⟨[demo_slot], []⟩ 1 300).1.reservations =
        ([] : List (Nat × Nat)).filter (fun r => !(r.2 < 0))) :=
  c4_reserve_iff 0 ⟨[demo_slot], []⟩ 1 300 (by decide)

/-- Booking rewrites the slot with the matching id in place. -/
theorem find_slot_mark_booked (slots : List Slot) (sid : Nat) :
    find_slot (mark_booked slots sid) sid =
      (find_slot slots sid).map (fun s => { s with is_available := false }) := by
  induction slots with
  | nil => rfl
  | cons a t ih =>
    unfold mark_booked find_slot at ih ⊢
    simp only [List.map_cons]
    by_cases ha : a.id = sid
    · simp [ha]
    · have hb : (a.id == sid) = false := by simpa using ha
      rw [if_neg (by simp [hb]), List.find?_cons_of_neg _ (by simp [hb]),
        List.find?_cons_of_neg _ (by simp [hb])]
      exact ih

/-- C2 counterexample: slot 1 is already booked (availability flag false), so
the claim demands that booking it fails with `SLOT_UNAVAILABLE` or
`RESERVATION_CONFLICT`.  The store`s `book_slot` (and the book endpoint)
report success anyway: there is no availability re-check before committing. -/
theorem c2_counterexample :
    find_slot [{ demo_slot with is_available := false }] 1 =
      some { demo_slot with is_available := false } ∧
    ({ demo_slot with is_available := false } : Slot).is_available = false ∧
    (book_slot ⟨[{ demo_slot with is_available := false }], []⟩ 1).2 = true ∧
    (book_slot_endpoint ⟨[{ demo_slot with is_available := false }], []⟩ 1).2 = true := by
  decide

/-- C2 (amended): the server`s booking transition performs no availability
re-check: `book_slot` reports success exactly when the slot id exists in the
catalog, even when its availability flag is already false or it is held by a
live reservation of another caller; in that case it silently re-books (flag
forced to false, any hold cleared).  The check-before-commit of the claim
exists only in the client-side `book_appointment`, which checks and reserves
but never invokes this transition. -/
theorem c2_book_succeeds_iff_exists :
    ∀ (st : Store) (sid : Nat),
    ((book_slot st sid).2 = true ↔ (find_slot st.slots sid).isSome = true) ∧
    (∀ s, find_slot (book_slot st sid).1.slots sid = some s → s.is_available = false) ∧
    ((book_slot st sid).2 = true → (st.reservations.map Prod.fst).Nodup →
      is_reserved (book_slot st sid).1 sid = false) := by
  intro st sid
  cases hfind : (find_slot st.slots sid).isSome with
  | false =>
    have hnone : find_slot st.slots sid = none := by
      cases h : find_slot st.slots sid
      · rfl
      · rw [h] at hfind; simp at hfind
    have heq : book_slot st sid = (st, false) := by
      unfold book_slot
      rw [hnone]
      rfl
    rw [heq]
    exact ⟨by simp [hfind], fun s hs => by simp [hnone] at hs, fun h => by simp at h⟩
  | true =>
    have heq : book_slot st sid =
        ({ slots := mark_booked st.slots sid,
           reservations := st.reservations.eraseP (fun r => r.1 == sid) }, true) := by
      unfold book_slot
      rw [hfind]
      rfl
    rw [heq]
    refine ⟨by simp [hfind], fun s hs => ?_, fun _ hnd => ?_⟩
    · have hs' : find_slot (mark_booked st.slots sid) sid = some s := hs
      rw [find_slot_mark_booked] at hs'
      cases h : find_slot st.slots sid with
      | none => rw [h] at hs'; simp at hs'
      | some s0 =>
        rw [h] at hs'
        injection hs' with hss
        rw [← hss]
    · have herase : (st.reservations.eraseP (fun r => r.1 == sid)).any
          (fun r => r.1 == sid) = false := by
        rw [eraseP_key_of_nodup sid st.reservations hnd]
        rw [Bool.eq_false_iff]
        intro hany
        rcases List.any_eq_true.mp hany with ⟨r, hmem, hk⟩
        rcases List.mem_filter.mp hmem with ⟨-, hne⟩
        simp only [hk] at hne
        exact Bool.noConfusion hne
      exact herase

theorem c2_witness :
    is_reserved (book_slot ⟨[demo_slot], [(1, 50)]⟩ 1).1 1 = false :=
  (c2_book_succeeds_iff_exists ⟨[demo_slot], [(1, 50)]⟩ 1).2.2 (by decide) (by decide)

/-- C3 (code bug, evaluated at the failing input): the GET-slot endpoint is
specified to have no side effects, but in the source `slot.is_available =
is_available` assigns through the same object stored in `store._slots`.  On a
held slot the recomputed availability is `False`, so a pure read permanently
flips the catalog flag: here slot 1 is available but held until `t = 100`;
after one GET at `t = 50` the stored flag is false, and even at `t = 200`
(hold long expired) `check_availability` now reports false, whereas without
the GET it reports true. -/
theorem c3_get_slot_mutates_catalog :
    demo_slot.is_available = true ∧
    find_slot (get_slot_endpoint 50 ⟨[demo_slot], [(1, 100)]⟩ 1).1.slots 1 =
      some { demo_slot with is_available := false } ∧
    (check_availability 200 (get_slot_endpoint 50 ⟨[demo_slot], [(1, 100)]⟩ 1).1 1).2 = false ∧
    (check_availability 200 ⟨[demo_slot], [(1, 100)]⟩ 1).2 = true := by
  decide

/-- C8 counterexample: two slots match the filters but `limit = 1`, so the
page holds one slot; the endpoint sets `total` to the page length `1`, not to
the match count `2` the claim requires. -/
theorem c8_counterexample :
    ((⟨[demo_slot, { demo_slot with id := 2, start_time := 11 }], []⟩ : Store).slots.filter
        (matches_query
          (cleanup_expired_reservations 0
            ⟨[demo_slot, { demo_slot with id := 2, start_time := 11 }], []⟩)
          "first_consultation" 0 100 none)).length = 2 ∧
    (get_availabilities_endpoint 0 ⟨[demo_slot, { demo_slot with id := 2, start_time := 11 }], []⟩
        "first_consultation" (some 0) (some 100) none 1 0).2.total = 1 := by
  decide

/-- C8 (amended): the search response carries the echoed motive id, the page
of at most `limit` slot summaries, and a `total` equal to the length of that
page (not the full match count); and a query matching nothing returns an
empty list with `total = 0` rather than an error. -/
theorem c8_response_shape :
    ∀ (now : Nat) (st : Store) (motive : String) (sd ed : Option Nat)
      (prac : Option String) (limit offset : Nat),
    ((get_availabilities_endpoint now st motive sd ed prac limit offset).2.total =
      (get_availabilities_endpoint now st motive sd ed prac limit offset).2.slots.length) ∧
    ((get_availabilities_endpoint now st motive sd ed prac limit offset).2.motive_id =
      motive) ∧
    ((get_availabilities_endpoint now st motive sd ed prac limit offset).2.slots.length ≤
      limit) ∧
    ((cleanup_expired_reservations now st).slots.filter
        (matches_query (cleanup_expired_reservations now st) motive (sd.getD now)
          (ed.getD (sd.getD now + two_weeks)) prac) = [] →
      (get_availabilities_endpoint now st motive sd ed prac limit offset).2.slots = [] ∧
      (get_availabilities_endpoint now st motive sd ed prac limit offset).2.total = 0) := by
  intro now st motive sd ed prac limit offset
  refine ⟨rfl, rfl, ?_, ?_⟩
  · show ((((sorted_results (cleanup_expired_reservations now st) motive (sd.getD now)
        (ed.getD (sd.getD now + two_weeks)) prac).drop offset).take limit).length ≤ limit)
    rw [List.length_take]
    exact min_le_left _ _
  · intro hempty
    have hsr : sorted_results (cleanup_expired_reservations now st) motive (sd.getD now)
        (ed.getD (sd.getD now + two_weeks)) prac = [] := by
      unfold sorted_results
      rw [hempty]
      rfl
    constructor
    · show (((sorted_results (cleanup_expired_reservations now st) motive (sd.getD now)
          (ed.getD (sd.getD now + two_weeks)) prac).drop offset).take limit) = []
      rw [hsr]
      simp
    · show ((((sorted_results (cleanup_expired_reservations now st) motive (sd.getD now)
          (ed.getD (sd.getD now + two_weeks)) prac).drop offset).take limit).length = 0)
      rw [hsr]
      simp

theorem c8_witness :
    (get_availabilities_endpoint 0 ⟨[demo_slot], []⟩ "emergency" none none none 5 0).2.slots =
      [] ∧
    (get_availabilities_endpoint 0 ⟨[demo_slot], []⟩ "emergency" none none none 5 0).2.total =
      0 :=
  (c8_response_shape 0 ⟨[demo_slot], []⟩ "emergency" none none none 5 0).2.2.2 (by decide)

/-- Unfolding of the search selection predicate. -/
theorem matches_query_eq_true_iff (st : Store) (m : String) (sd ed : Nat)
    (prac : Option String) (slot : Slot) :
    matches_query st m sd ed prac slot = true ↔
      slot.is_available = true ∧ slot.motive_id = m ∧ sd ≤ slot.start_time ∧
      slot.start_time ≤ ed ∧ (∀ p, prac = some p → slot.practitioner_id = p) ∧
      is_reserved st slot.id = false := by
  unfold matches_query
  cases prac with
  | none =>
    simp only [Bool.and_eq_true, Bool.not_eq_true', decide_eq_false_iff_not, Nat.not_lt,
      beq_iff_eq]
    constructor
    · rintro ⟨⟨⟨⟨⟨h1, h2⟩, h3⟩, h4⟩, -⟩, h6⟩
      exact ⟨h1, h2, h3, h4, fun p hp => Option.noConfusion hp, h6⟩
    · rintro ⟨h1, h2, h3, h4, -, h6⟩
      exact ⟨⟨⟨⟨⟨h1, h2⟩, h3⟩, h4⟩, trivial⟩, h6⟩
  | some p =>
    simp only [Bool.and_eq_true, Bool.not_eq_true', decide_eq_false_iff_not, Nat.not_lt,
      beq_iff_eq]
    constructor
    · rintro ⟨⟨⟨⟨⟨h1, h2⟩, h3⟩, h4⟩, h5⟩, h6⟩
      exact ⟨h1, h2, h3, h4, fun q hq => by cases hq; exact h5, h6⟩
    · rintro ⟨h1, h2, h3, h4, h5, h6⟩
      exact ⟨⟨⟨⟨⟨h1, h2⟩, h3⟩, h4⟩, h5 p rfl⟩, h6⟩

/-- After the sweep, "not held" means every original ledger entry for the id
is strictly expired (dict-key uniqueness). -/
theorem is_reserved_cleanup_false_iff (now : Nat) (st : Store) (sid : Nat)
    (hnd : (st.reservations.map Prod.fst).Nodup) :
    is_reserved (cleanup_expired_reservations now st) sid = false ↔
      ∀ r ∈ st.reservations, r.1 = sid → r.2 < now := by
  unfold is_reserved
  rw [cleanup_eq_filter now st hnd]
  constructor
  · intro h r hr hk
    by_contra hlt
    have hmem : r ∈ st.reservations.filter (fun r => !(r.2 < now)) :=
      List.mem_filter.mpr ⟨hr, by simp [hlt]⟩
    have : (st.reservations.filter (fun r => !(r.2 < now))).any (fun r => r.1 == sid) = true :=
      List.any_eq_true.mpr ⟨r, hmem, by simp [hk]⟩
    simp_all
  · intro h
    rw [Bool.eq_false_iff]
    intro hany
    rcases List.any_eq_true.mp hany with ⟨r, hmem, hk⟩
    rcases List.mem_filter.mp hmem with ⟨hr, hexp⟩
    have := h r hr (by simpa using hk)
    simp_all

/-- The returned page is a sublist of the full sorted filtered sequence. -/
theorem page_sublist_sorted (l : List Slot) (limit offset : Nat) :
    ((l.drop offset).take limit).Sublist l :=
  ((l.drop offset).take_sublist limit).trans (l.drop_sublist offset)

/-- C6: every slot returned by search is available, matches the motive, lies
in the inclusive time window, matches the practitioner filter when given, and
has no live reservation; the page is non-decreasing by start time
(`Pairwise slotLE`); and for each fixed start time the returned slots appear
in catalog insertion order (the tie class is a sublist of the catalog list). -/
theorem c6_search_filters_and_order :
    ∀ (now : Nat) (st : Store) (motive : String) (sd ed : Nat)
      (prac : Option String) (limit offset : Nat),
    (st.reservations.map Prod.fst).Nodup →
    (∀ slot ∈ (get_availabilities now st motive sd ed prac limit offset).2,
       slot.is_available = true ∧
       slot.motive_id = motive ∧
       sd ≤ slot.start_time ∧ slot.start_time ≤ ed ∧
       (∀ p, prac = some p → slot.practitioner_id = p) ∧
       (∀ r ∈ st.reservations, r.1 = slot.id → ¬ now < r.2)) ∧
    ((get_availabilities now st motive sd ed prac limit offset).2.Pairwise slotLE) ∧
    (∀ t, (((get_availabilities now st motive sd ed prac limit offset).2.filter
        (fun s => s.start_time == t)).Sublist st.slots)) := by
  intro now st motive sd ed prac limit offset hnd
  have hpage : (get_availabilities now st motive sd ed prac limit offset).2 =
      ((sorted_results (cleanup_expired_reservations now st) motive sd ed prac).drop
        offset).take limit := rfl
  have hsub : ((get_availabilities now st motive sd ed prac limit offset).2).Sublist
      (sorted_results (cleanup_expired_reservations now st) motive sd ed prac) := by
    rw [hpage]
    exact page_sublist_sorted _ _ _
  refine ⟨?_, ?_, ?_⟩
  · intro slot hslot
    have hmem : slot ∈ sorted_results (cleanup_expired_reservations now st) motive sd ed prac :=
      hsub.subset hslot
    have hfil : slot ∈ (cleanup_expired_reservations now st).slots.filter
        (matches_query (cleanup_expired_reservations now st) motive sd ed prac) :=
      (List.mem_insertionSort slotLE).mp hmem
    have hq := (List.mem_filter.mp hfil).2
    rw [matches_query_eq_true_iff] at hq
    obtain ⟨h1, h2, h3, h4, h5, h6⟩ := hq
    refine ⟨h1, h2, h3, h4, h5, ?_⟩
    intro r hr hk
    have := (is_reserved_cleanup_false_iff now st slot.id hnd).mp h6 r hr hk
    omega
  · have hsorted : (sorted_results (cleanup_expired_reservations now st) motive sd ed
        prac).Pairwise slotLE :=
      List.sorted_insertionSort slotLE _
    exact hsorted.sublist hsub
  · intro t
    have h1 : (((get_availabilities now st motive sd ed prac limit offset).2).filter
        (fun s => s.start_time == t)).Sublist
        ((sorted_results (cleanup_expired_reservations now st) motive sd ed prac).filter
          (fun s => s.start_time == t)) :=
      hsub.filter _
    have h2 : (sorted_results (cleanup_expired_reservations now st) motive sd ed prac).filter
        (fun s => s.start_time == t) =
        ((cleanup_expired_reservations now st).slots.filter
          (matches_query (cleanup_expired_reservations now st) motive sd ed prac)).filter
          (fun s => s.start_time == t) := by
      unfold sorted_results
      exact filter_insertionSort_eq _ (fun a b ha hb => by
        have ha' : a.start_time = t := by simpa using ha
        have hb' : b.start_time = t := by simpa using hb
        unfold slotLE
        omega) _
    rw [h2] at h1
    exact h1.trans ((List.filter_sublist _).trans (List.filter_sublist _))

/-- C7: pagination is a plain offset/limit slice: with nothing else touching
the store between the calls (the second call runs on the store returned by
the first, at the same instant), page `(L, O)` concatenated with page
`(L, O + L)` is exactly the length-`2L` slice at offset `O` of the full
sorted filtered sequence — so the two pages are contiguous and disjoint. -/
theorem c7_pagination_slice :
    ∀ (now : Nat) (st : Store) (motive : String) (sd ed : Nat)
      (prac : Option String) (L O : Nat),
    (st.reservations.map Prod.fst).Nodup →
    (get_availabilities now st motive sd ed prac L O).2 ++
      (get_availabilities now (get_availabilities now st motive sd ed prac L O).1
        motive sd ed prac L (O + L)).2 =
      ((sorted_results (cleanup_expired_reservations now st) motive sd ed prac).drop
        O).take (2 * L) := by
  intro now st motive sd ed prac L O hnd
  have hst1 : (get_availabilities now st motive sd ed prac L O).1 =
      cleanup_expired_reservations now st := rfl
  have hpage2 : (get_availabilities now (get_availabilities now st motive sd ed prac L O).1
      motive sd ed prac L (O + L)).2 =
      ((sorted_results (cleanup_expired_reservations now
        (cleanup_expired_reservations now st)) motive sd ed prac).drop (O + L)).take L := rfl
  rw [hpage2, cleanup_idem now st hnd]
  show ((sorted_results (cleanup_expired_reservations now st) motive sd ed prac).drop
      O).take L ++ _ = _
  rw [two_mul, List.take_add, ← List.drop_drop]

theorem c6_witness :
    demo_slot.is_available = true ∧
    demo_slot.motive_id = "first_consultation" ∧
    0 ≤ demo_slot.start_time ∧ demo_slot.start_time ≤ 100 ∧
    (∀ p, (none : Option String) = some p → demo_slot.practitioner_id = p) ∧
    (∀ r ∈ ([(2, 500)] : List (Nat × Nat)), r.1 = demo_slot.id → ¬ 0 < r.2) :=
  (c6_search_filters_and_order 0
      ⟨[{ demo_slot with id := 2, start_time := 11 }, demo_slot], [(2, 500)]⟩
      "first_consultation" 0 100 none 5 0 (by decide)).1 demo_slot (by decide)

theorem c7_witness :
    (get_availabilities 0 ⟨[demo_slot, { demo_slot with id := 2, start_time := 11 },
        { demo_slot with id := 3, start_time := 12 }], []⟩
      "first_consultation" 0 100 none 1 0).2 ++
      (get_availabilities 0
        (get_availabilities 0 ⟨[demo_slot, { demo_slot with id := 2, start_time := 11 },
            { demo_slot with id := 3, start_time := 12 }], []⟩
          "first_consultation" 0 100 none 1 0).1
        "first_consultation" 0 100 none 1 (0 + 1)).2 =
      ((sorted_results
        (cleanup_expired_reservations 0 ⟨[demo_slot, { demo_slot with id := 2, start_time := 11 },
            { demo_slot with id := 3, start_time := 12 }], []⟩)
        "first_consultation" 0 100 none).drop 0).take (2 * 1) :=
  c7_pagination_slice 0 ⟨[demo_slot, { demo_slot with id := 2, start_time := 11 },
      { demo_slot with id := 3, start_time := 12 }], []⟩
    "first_consultation" 0 100 none 1 0 (by decide)

/-- C9: `book_appointment` is total — every booking attempt yields a
`BookingResult` (the Lean embedding returns one for every combination of
sub-operation outcomes, mirroring the `try`/`except Exception` wrapper) — any
raised internal fault is converted at the booking boundary into the generic
failed result with code `BOOKING_ERROR`, every failure carries one of the
three expected codes, and success implies the check and the reserve both
completed normally with `True`. -/
theorem c9_book_appointment_never_raises :
    ∀ (check_result reserve_result : Except Exc Bool)
      (motive_lookup : Except Exc (Option Motive)) (log_result : Except Exc Unit)
      (bid : Nat),
    (∀ e, book_appointment_body check_result reserve_result motive_lookup log_result bid =
        .error e →
      book_appointment check_result reserve_result motive_lookup log_result bid =
        booking_error_result) ∧
    ((book_appointment check_result reserve_result motive_lookup log_result bid).success =
        false →
      (book_appointment check_result reserve_result motive_lookup log_result bid).error_code =
          some "SLOT_UNAVAILABLE" ∨
        (book_appointment check_result reserve_result motive_lookup log_result
            bid).error_code = some "RESERVATION_CONFLICT" ∨
        (book_appointment check_result reserve_result motive_lookup log_result
            bid).error_code = some "BOOKING_ERROR") ∧
    ((book_appointment check_result reserve_result motive_lookup log_result bid).success =
        true →
      check_result = .ok true ∧ reserve_result = .ok true ∧
      (book_appointment check_result reserve_result motive_lookup log_result bid).booking_id =
        some bid ∧
      (book_appointment check_result reserve_result motive_lookup log_result bid).error_code =
        none) := by
  intro check_result reserve_result motive_lookup log_result bid
  cases check_result with
  | error e =>
    exact ⟨fun _ _ => rfl, fun _ => Or.inr (Or.inr rfl),
      fun h => absurd h (by simp [book_appointment, book_appointment_body,
        booking_error_result, Except.bind])⟩
  | ok cb =>
    cases cb with
    | false =>
      exact ⟨fun e h => absurd h (by simp [book_appointment_body, Except.bind, pure,
          Except.pure]),
        fun _ => Or.inl rfl,
        fun h => absurd h (by simp [book_appointment, book_appointment_body,
          slot_unavailable_result, Except.bind, pure, Except.pure])⟩
    | true =>
      cases reserve_result with
      | error e =>
        exact ⟨fun _ _ => rfl, fun _ => Or.inr (Or.inr rfl),
          fun h => absurd h (by simp [book_appointment, book_appointment_body,
            booking_error_result, Except.bind])⟩
      | ok rb =>
        cases rb with
        | false =>
          exact ⟨fun e h => absurd h (by simp [book_appointment_body, Except.bind, pure,
              Except.pure]),
            fun _ => Or.inr (Or.inl rfl),
            fun h => absurd h (by simp [book_appointment, book_appointment_body,
              reservation_conflict_result, Except.bind, pure, Except.pure])⟩
        | true =>
          cases motive_lookup with
          | error e =>
            exact ⟨fun _ _ => rfl, fun _ => Or.inr (Or.inr rfl),
              fun h => absurd h (by simp [book_appointment, book_appointment_body,
                booking_error_result, Except.bind])⟩
          | ok mo =>
            cases log_result with
            | error e =>
              exact ⟨fun _ _ => rfl, fun _ => Or.inr (Or.inr rfl),
                fun h => absurd h (by simp [book_appointment, book_appointment_body,
                  booking_error_result, Except.bind])⟩
            | ok u =>
              cases u
              exact ⟨fun e h => absurd h (by simp [book_appointment_body, Except.bind,
                  pure, Except.pure]),
                fun h => absurd h (by simp [book_appointment, book_appointment_body,
                  Except.bind, pure, Except.pure]),
                fun _ => ⟨rfl, rfl, rfl, rfl⟩⟩

theorem c9_witness :
    book_appointment (.error (.fault "network down")) (.ok true) (.ok none) (.ok ()) 5 =
      booking_error_result :=
  (c9_book_appointment_never_raises (.error (.fault "network down")) (.ok true) (.ok none)
      (.ok ()) 5).1 (.fault "network down") rfl

theorem slot_set_avail_eq_self (s : Slot) (h : s.is_available = true) :
    ({ s with is_available := true } : Slot) = s := by
  cases s
  simp_all

/-- Outcome of `check_availability`. -/
theorem check_availability_snd (now : Nat) (st : Store) (sid : Nat) :
    (check_availability now st sid).2 = true ↔
      ∃ s, find_slot st.slots sid = some s ∧ s.is_available = true ∧
        is_reserved (cleanup_expired_reservations now st) sid = false := by
  simp only [check_availability]
  rw [show find_slot (cleanup_expired_reservations now st).slots sid =
      find_slot st.slots sid from rfl]
  cases hf : find_slot st.slots sid with
  | none => simp
  | some s =>
    cases hav : s.is_available with
    | false => simp [hav]
    | true =>
      cases hres : is_reserved (cleanup_expired_reservations now st) sid with
      | true => simp [hav, hres]
      | false => simp [hav, hres]

/-- Outcome of the client-side availability check. -/
theorem check_slot_availability_snd (now : Nat) (st : Store) (sid : Nat) :
    (check_slot_availability now st sid).2 = true ↔
      ∃ s, find_slot st.slots sid = some s ∧ s.is_available = true ∧
        is_reserved (cleanup_expired_reservations now st) sid = false := by
  unfold check_slot_availability get_slot_endpoint get_slot
  cases hf : find_slot st.slots sid with
  | none => simp
  | some s0 =>
    show (check_availability now st sid).2 = true ↔ _
    rw [check_availability_snd, hf]

/-- Full evaluation of the client-side availability check when the slot is
present, available and unheld. -/
theorem check_slot_availability_true_spec (now : Nat) (st : Store) (sid : Nat) (s : Slot)
    (hf : find_slot st.slots sid = some s) (hav : s.is_available = true)
    (hres : is_reserved (cleanup_expired_reservations now st) sid = false) :
    check_slot_availability now st sid =
      (⟨st.slots.map (fun x => if x.id == sid then { x with is_available := true } else x),
        (cleanup_expired_reservations now st).reservations⟩, true) := by
  have hq : check_availability now st sid = (cleanup_expired_reservations now st, true) := by
    simp only [check_availability]
    rw [show find_slot (cleanup_expired_reservations now st).slots sid =
        find_slot st.slots sid from rfl, hf]
    simp [hav, hres]
  simp only [check_slot_availability, get_slot_endpoint, get_slot]
  rw [hf, hq]
  rfl

/-- When the found slot is available and slot ids are unique, the write-back
of the recomputed availability leaves the catalog unchanged. -/
theorem map_set_avail_id (slots : List Slot) (sid : Nat) (s : Slot)
    (hnd : (slots.map Slot.id).Nodup) (hf : find_slot slots sid = some s)
    (hav : s.is_available = true) :
    slots.map (fun x => if x.id == sid then { x with is_available := true } else x) =
      slots := by
  have hs_mem : s ∈ slots := List.mem_of_find?_eq_some hf
  have hs_id : s.id = sid := by simpa using List.find?_some hf
  have hcong : ∀ x ∈ slots,
      (if x.id == sid then ({ x with is_available := true } : Slot) else x) = id x := by
    intro x hx
    by_cases hxid : x.id = sid
    · have hxs : x = s := List.inj_on_of_nodup_map hnd hx hs_mem (by rw [hxid, hs_id])
      subst hxs
      rw [if_pos (by simp [hxid])]
      exact slot_set_avail_eq_self x hav
    · rw [if_neg (by simp [hxid])]
      rfl
  rw [List.map_congr_left hcong, List.map_id]

/-- C10: a successful client-side `book_appointment` only checks, places a
300-second hold, and logs: the catalog (in particular the availability flag)
is untouched, the only state change is the appended reservation with expiry
`now + 300`, and at any later instant `t'` past that expiry the slot is again
returned by a search whose filters it matches (with the whole result in one
page: offset 0, limit at least the catalog size). -/
theorem c10_booking_flow_reserves_only :
    ∀ (now : Nat) (st : Store) (sid bid : Nat),
    (st.slots.map Slot.id).Nodup →
    (st.reservations.map Prod.fst).Nodup →
    (book_appointment_flow now st sid bid).2.success = true →
    ((book_appointment_flow now st sid bid).1.slots = st.slots) ∧
    (∃ s, find_slot st.slots sid = some s ∧ s.is_available = true) ∧
    ((book_appointment_flow now st sid bid).1.reservations =
      (cleanup_expired_reservations now st).reservations ++ [(sid, now + 300)]) ∧
    (∀ (t' : Nat), now + 300 < t' →
      ∀ (motive : String) (sd ed : Nat) (prac : Option String) (s : Slot),
      find_slot st.slots sid = some s →
      s.motive_id = motive → sd ≤ s.start_time → s.start_time ≤ ed →
      (∀ p, prac = some p → s.practitioner_id = p) →
      s ∈ (get_availabilities t' (book_appointment_flow now st sid bid).1 motive sd ed prac
        st.slots.length 0).2) := by
  intro now st sid bid hnds hndr hsucc
  cases hc : (check_slot_availability now st sid).2 with
  | false =>
    exfalso
    have hfl : (book_appointment_flow now st sid bid).2.success = false := by
      simp only [book_appointment_flow]
      rw [hc]
      rfl
    rw [hsucc] at hfl
    exact Bool.noConfusion hfl
  | true =>
    obtain ⟨s, hf, hav, hres⟩ := (check_slot_availability_snd now st sid).mp hc
    have hcheck := check_slot_availability_true_spec now st sid s hf hav hres
    rw [map_set_avail_id st.slots sid s hnds hf hav] at hcheck
    have hcheck' : check_slot_availability now st sid =
        (cleanup_expired_reservations now st, true) := by
      rw [hcheck]
      exact congrArg (fun x => (x, true)) (Store.eq_of_fields rfl rfl)
    have hclean2 := cleanup_idem now st hndr
    have hrsv : reserve_slot_client now (cleanup_expired_reservations now st) sid =
        ({ cleanup_expired_reservations now st with
            reservations :=
              (cleanup_expired_reservations now st).reservations ++ [(sid, now + 300)] },
          true) := by
      simp only [reserve_slot_client, reserve_slot]
      rw [hclean2]
      rw [(critical_section_spec now sid 300 (cleanup_expired_reservations now st)).2.2.2 s
        hres hf hav]
      rfl
    have hflow : book_appointment_flow now st sid bid =
        (⟨st.slots,
          (cleanup_expired_reservations now st).reservations ++ [(sid, now + 300)]⟩,
          { success := true, booking_id := some bid, message := msg_confirmed,
            error_code := none }) := by
      simp only [book_appointment_flow]
      rw [hcheck']
      simp only []
      rw [hrsv]
      rfl
    refine ⟨by rw [hflow], ⟨s, hf, hav⟩, by rw [hflow], ?_⟩
    intro t' ht' motive sd ed prac s' hf' hm hsd hed hprac
    rw [hf] at hf'
    injection hf' with hss
    subst hss
    rw [hflow]
    have hs_mem : s ∈ st.slots := List.mem_of_find?_eq_some hf
    have hs_id : s.id = sid := by simpa using List.find?_some hf
    set st2 : Store :=
      ⟨st.slots, (cleanup_expired_reservations now st).reservations ++ [(sid, now + 300)]⟩
      with hst2
    have hnokey : ∀ r ∈ (cleanup_expired_reservations now st).reservations, r.1 ≠ sid := by
      intro r hr hk
      have : is_reserved (cleanup_expired_reservations now st) sid = true :=
        List.any_eq_true.mpr ⟨r, hr, by simp [hk]⟩
      rw [hres] at this
      exact Bool.noConfusion this
    have hnd2 : (st2.reservations.map Prod.fst).Nodup := by
      show (((cleanup_expired_reservations now st).reservations ++
        [(sid, now + 300)]).map Prod.fst).Nodup
      rw [List.map_append]
      rw [List.nodup_append]
      refine ⟨((cleanup_reservations_sublist now st).map Prod.fst).nodup hndr,
        List.nodup_singleton _, ?_⟩
      intro k hk1 hk2
      rcases List.mem_map.mp hk1 with ⟨r, hr, hfst⟩
      have hks : k = sid := by simpa using hk2
      exact hnokey r hr (hfst.trans hks)
    have hres2 : is_reserved (cleanup_expired_reservations t' st2) sid = false := by
      rw [is_reserved_cleanup_false_iff t' st2 sid hnd2]
      intro r hr hk
      rcases List.mem_append.mp hr with hr1 | hr2
      · exact absurd hk (hnokey r hr1)
      · have : r = (sid, now + 300) := by simpa using hr2
        rw [this]
        exact ht'
    have hq : matches_query (cleanup_expired_reservations t' st2) motive sd ed prac s =
        true := by
      rw [matches_query_eq_true_iff]
      exact ⟨hav, hm, hsd, hed, hprac, hs_id ▸ hres2⟩
    have hmemf : s ∈ (cleanup_expired_reservations t' st2).slots.filter
        (matches_query (cleanup_expired_reservations t' st2) motive sd ed prac) :=
      List.mem_filter.mpr ⟨hs_mem, hq⟩
    have hmems : s ∈ sorted_results (cleanup_expired_reservations t' st2) motive sd ed prac :=
      (List.mem_insertionSort slotLE).mpr hmemf
    show s ∈ ((sorted_results (cleanup_expired_reservations t' st2) motive sd ed prac).drop
      0).take st.slots.length
    rw [List.drop_zero, List.take_of_length_le]
    · exact hmems
    · calc (sorted_results (cleanup_expired_reservations t' st2) motive sd ed prac).length
          = ((cleanup_expired_reservations t' st2).slots.filter
              (matches_query (cleanup_expired_reservations t' st2) motive sd ed
                prac)).length :=
            (List.perm_insertionSort slotLE _).length_eq
        _ ≤ ((cleanup_expired_reservations t' st2).slots).length :=
            List.length_filter_le _ _
        _ = st.slots.length := rfl

theorem c10_witness :
    demo_slot ∈ (get_availabilities 301
      (book_appointment_flow 0 ⟨[demo_slot], []⟩ 1 7).1 "first_consultation" 0 100 none
      ([demo_slot] : List Slot).length 0).2 :=
  (c10_booking_flow_reserves_only 0 ⟨[demo_slot], []⟩ 1 7 (by decide) (by decide)
      (by decide)).2.2.2 301 (by decide) "first_consultation" 0 100 none demo_slot
    (by decide) (by decide) (by decide) (by decide) (fun p hp => Option.noConfusion hp)

/-- Updating index `i` changes a `countP` by the contribution of the new
element minus that of the old one (additively, to stay in `Nat`). -/
theorem countP_set_some {α : Type} (p : α → Bool) :
    ∀ (l : List α) (i : Nat) (x y : α), l[i]? = some x →
      (l.set i y).countP p + (if p x then 1 else 0) =
        l.countP p + (if p y then 1 else 0) := by
  intro l
  induction l with
  | nil => intro i x y h; simp at h
  | cons a t ih =>
    intro i x y h
    cases i with
    | zero =>
      rw [List.getElem?_cons_zero] at h
      injection h with h
      subst h
      rw [List.set_cons_zero, List.countP_cons, List.countP_cons]
      cases hpa : p a <;> cases hpy : p y <;> simp [hpa, hpy]
    | succ n =>
      rw [List.getElem?_cons_succ] at h
      have hrec := ih n x y h
      rw [List.set_cons_succ, List.countP_cons, List.countP_cons]
      cases hpa : p a <;> simp [hpa] <;> omega

@[simp] theorem phase_done_ready : phase_done Phase.ready = false := rfl
@[simp] theorem phase_done_swept : phase_done Phase.swept = false := rfl
@[simp] theorem phase_done_done (r : Option Nat) : phase_done (Phase.done r) = true := rfl
@[simp] theorem phase_success_ready : phase_success Phase.ready = false := rfl
@[simp] theorem phase_success_swept : phase_success Phase.swept = false := rfl
@[simp] theorem phase_success_done_some (n : Nat) :
    phase_success (Phase.done (some n)) = true := rfl
@[simp] theorem phase_success_done_none : phase_success (Phase.done none) = false := rfl
@[simp] theorem phase_conflict_ready : phase_conflict Phase.ready = false := rfl
@[simp] theorem phase_conflict_swept : phase_conflict Phase.swept = false := rfl
@[simp] theorem phase_conflict_done_some (n : Nat) :
    phase_conflict (Phase.done (some n)) = false := rfl
@[simp] theorem phase_conflict_done_none : phase_conflict (Phase.done none) = true := rfl

/-- A finished call is either the success or the conflict. -/
theorem countP_done_split (procs : List (Nat × Phase)) :
    procs.countP (fun p => phase_done p.2) =
      procs.countP (fun p => phase_success p.2) +
        procs.countP (fun p => phase_conflict p.2) := by
  induction procs with
  | nil => rfl
  | cons a t ih =>
    obtain ⟨d, ph⟩ := a
    rw [List.countP_cons, List.countP_cons, List.countP_cons, ih]
    cases ph with
    | ready => simp
    | swept => simp
    | done res => cases res <;> simp <;> try omega

/-- The invariant carried through every interleaving of concurrent reserve
calls on slot `sid` (present as `s`, available, initially unheld): every
ledger entry for `sid` has a non-past expiry; and either no call has finished
and the slot is unheld, or exactly one call has succeeded and the slot is
held. -/
def c1_inv (now sid : Nat) (s : Slot) (c : Conf) : Prop :=
  find_slot c.store.slots sid = some s ∧
  (∀ r ∈ c.store.reservations, r.1 = sid → now ≤ r.2) ∧
  ((c.procs.countP (fun p => phase_done p.2) = 0 ∧ is_reserved c.store sid = false) ∨
    (c.procs.countP (fun p => phase_success p.2) = 1 ∧ is_reserved c.store sid = true))

theorem c1_inv_step (now sid : Nat) (s : Slot) (hs : s.is_available = true)
    (c : Conf) (i : Nat) (h : c1_inv now sid s c) :
    c1_inv now sid s (sched_step now sid c i) := by
  obtain ⟨hfind, hbound, hdisj⟩ := h
  unfold sched_step
  cases hget : c.procs[i]? with
  | none => exact ⟨hfind, hbound, hdisj⟩
  | some pr =>
    obtain ⟨d, ph⟩ := pr
    cases ph with
    | ready =>
      have hcnt_done := countP_set_some (fun p => phase_done p.2) c.procs i
        (d, Phase.ready) (d, Phase.swept) hget
      have hcnt_succ := countP_set_some (fun p => phase_success p.2) c.procs i
        (d, Phase.ready) (d, Phase.swept) hget
      simp at hcnt_done hcnt_succ
      have hrsv := cleanup_is_reserved now sid c.store hbound
      refine ⟨hfind, ?_, ?_⟩
      · intro r hr hk
        exact hbound r ((cleanup_reservations_sublist now c.store).subset hr) hk
      · show ((c.procs.set i (d, Phase.swept)).countP (fun p => phase_done p.2) = 0 ∧
            is_reserved (cleanup_expired_reservations now c.store) sid = false) ∨
          ((c.procs.set i (d, Phase.swept)).countP (fun p => phase_success p.2) = 1 ∧
            is_reserved (cleanup_expired_reservations now c.store) sid = true)
        rcases hdisj with ⟨h0, hfree⟩ | ⟨h1, hheld⟩
        · exact Or.inl ⟨by omega, by rw [hrsv]; exact hfree⟩
        · exact Or.inr ⟨by omega, by rw [hrsv]; exact hheld⟩
    | swept =>
      show c1_inv now sid s
        ⟨(critical_section now sid d c.store).1,
          c.procs.set i (d, Phase.done (critical_section now sid d c.store).2)⟩
      rcases hdisj with ⟨h0, hfree⟩ | ⟨h1, hheld⟩
      · rw [(critical_section_spec now sid d c.store).2.2.2 s hfree hfind hs]
        have hsucc0 : c.procs.countP (fun p => phase_success p.2) = 0 := by
          have hle : c.procs.countP (fun p => phase_success p.2) ≤
              c.procs.countP (fun p => phase_done p.2) :=
            List.countP_mono_left (fun x _ hx => by
              obtain ⟨d', ph'⟩ := x
              cases ph' with
              | ready => exact absurd hx (by simp)
              | swept => exact absurd hx (by simp)
              | done res => simp)
          omega
        have hcnt := countP_set_some (fun p => phase_success p.2) c.procs i
          (d, Phase.swept) (d, Phase.done (some (now + d))) hget
        simp at hcnt
        refine ⟨hfind, ?_, Or.inr ⟨?_, ?_⟩⟩
        · intro r hr hk
          rcases List.mem_append.mp hr with hr1 | hr2
          · exact hbound r hr1 hk
          · have : r = (sid, now + d) := by simpa using hr2
            rw [this]
            exact Nat.le_add_right now d
        · show (c.procs.set i (d, Phase.done (some (now + d)))).countP
            (fun p => phase_success p.2) = 1
          omega
        · show (c.store.reservations ++ [(sid, now + d)]).any (fun r => r.1 == sid) = true
          rw [List.any_append]
          simp
      · rw [(critical_section_spec now sid d c.store).1 hheld]
        have hcnt := countP_set_some (fun p => phase_success p.2) c.procs i
          (d, Phase.swept) (d, Phase.done none) hget
        simp at hcnt
        refine ⟨hfind, hbound, Or.inr ⟨?_, hheld⟩⟩
        show (c.procs.set i (d, Phase.done none)).countP (fun p => phase_success p.2) = 1
        omega
    | done res => exact ⟨hfind, hbound, hdisj⟩

theorem c1_inv_run (now sid : Nat) (s : Slot) (hs : s.is_available = true) :
    ∀ (sched : List Nat) (c : Conf), c1_inv now sid s c →
      c1_inv now sid s (run_sched now sid c sched) := by
  intro sched
  induction sched with
  | nil => intro c h; exact h
  | cons a t ih =>
    intro c h
    exact ih _ (c1_inv_step now sid s hs c a h)

theorem sched_step_length (now sid : Nat) (c : Conf) (i : Nat) :
    (sched_step now sid c i).procs.length = c.procs.length := by
  unfold sched_step
  cases hget : c.procs[i]? with
  | none => rfl
  | some pr =>
    obtain ⟨d, ph⟩ := pr
    cases ph <;> simp [List.length_set]

theorem run_sched_length (now sid : Nat) :
    ∀ (sched : List Nat) (c : Conf),
      (run_sched now sid c sched).procs.length = c.procs.length := by
  intro sched
  induction sched with
  | nil => intro c; rfl
  | cons a t ih =>
    intro c
    exact (ih _).trans (sched_step_length now sid c a)

/-- C1: for any number `N = durs.length ≥ 2` of concurrent `reserve_slot`
calls on the same existing, available, unheld slot, under every interleaving
of their atomic units (the awaited sweep, and the lock-guarded
check-then-write which contains no await and hence runs atomically), once all
calls have finished exactly one holds a success (an expiry timestamp) and the
other `N - 1` hold the conflict signal — in particular no interleaving lets
two calls both observe "no live reservation" and both write. -/
theorem c1_concurrent_reserve_mutual_exclusion :
    ∀ (now sid : Nat) (st : Store) (s : Slot) (durs : List Nat) (sched : List Nat),
    find_slot st.slots sid = some s →
    s.is_available = true →
    (∀ r ∈ st.reservations, r.1 ≠ sid) →
    2 ≤ durs.length →
    all_done (run_sched now sid ⟨st, durs.map (fun d => (d, Phase.ready))⟩ sched).procs =
      true →
    ((run_sched now sid ⟨st, durs.map (fun d => (d, Phase.ready))⟩ sched).procs.countP
        (fun p => phase_success p.2) = 1 ∧
      (run_sched now sid ⟨st, durs.map (fun d => (d, Phase.ready))⟩ sched).procs.countP
        (fun p => phase_conflict p.2) = durs.length - 1) := by
  intro now sid st s durs sched hfind hs hnk hlen2 hdone
  have hinv0 : c1_inv now sid s ⟨st, durs.map (fun d => (d, Phase.ready))⟩ := by
    refine ⟨hfind, fun r hr hk => absurd hk (hnk r hr), Or.inl ⟨?_, ?_⟩⟩
    · rw [List.countP_eq_zero]
      intro a ha
      rcases List.mem_map.mp ha with ⟨d, -, hd⟩
      rw [← hd]
      simp [phase_done]
    · rw [Bool.eq_false_iff]
      intro hany
      rcases List.any_eq_true.mp hany with ⟨r, hr, hk⟩
      exact hnk r hr (by simpa using hk)
  have hinv := c1_inv_run now sid s hs sched _ hinv0
  have hlen : (run_sched now sid ⟨st, durs.map (fun d => (d, Phase.ready))⟩
      sched).procs.length = durs.length := by
    rw [run_sched_length]
    exact List.length_map durs _
  have hcnt_done : (run_sched now sid ⟨st, durs.map (fun d => (d, Phase.ready))⟩
      sched).procs.countP (fun p => phase_done p.2) = durs.length := by
    rw [← hlen]
    exact List.countP_eq_length.mpr (List.all_eq_true.mp hdone)
  have hsplit := countP_done_split
    (run_sched now sid ⟨st, durs.map (fun d => (d, Phase.ready))⟩ sched).procs
  rcases hinv.2.2 with ⟨h0, -⟩ | ⟨h1, -⟩
  · omega
  · omega

theorem c1_witness :
    ((run_sched 0 1 ⟨⟨[demo_slot], []⟩, ([300, 60] : List Nat).map
        (fun d => (d, Phase.ready))⟩ [0, 1, 0, 1]).procs.countP
      (fun p => phase_success p.2) = 1 ∧
      (run_sched 0 1 ⟨⟨[demo_slot], []⟩, ([300, 60] : List Nat).map
        (fun d => (d, Phase.ready))⟩ [0, 1, 0, 1]).procs.countP
      (fun p => phase_conflict p.2) = ([300, 60] : List Nat).length - 1) :=
  c1_concurrent_reserve_mutual_exclusion 0 1 ⟨[demo_slot], []⟩ demo_slot [300, 60]
    [0, 1, 0, 1] (by decide) (by decide) (by decide) (by decide) (by decide)

